import Mathlib

/-!
Verification of the gmxFlow pipeline engine (dependency gating, durable
completion flags, process execution, batch controller, settings loading)
against a shallow embedding of the Python sources
(`utils.py`, `pipeline.py`, `gmxflow.py`, `settings.py`, `config.py`).

The working directory is modelled as an association list of
(path, content) pairs; external processes and the interactive user are
modelled as oracles (pure functions supplied as parameters), and a ghost
list of spawned command lines records every process the engine starts.
-/

namespace GmxFlow

/-! ## File-system model -/

/-- A file system: the files of the working directory as (path, content)
pairs.  Lookup takes the first (most recent) binding. -/
abbrev FS := List (String × String)

/-- `os.path.exists`. -/
def fsExists (fs : FS) (path : String) : Bool :=
  fs.any (fun e => e.1 == path)

/-- `open(path, "w")` followed by a write: creates or truncates, so the
new content shadows any previous binding (last write wins). -/
def fsWrite (fs : FS) (path content : String) : FS :=
  (path, content) :: fs.filter (fun e => e.1 != path)

/-- `os.remove`. -/
def fsRemove (fs : FS) (path : String) : FS :=
  fs.filter (fun e => e.1 != path)

/-- Reading a file's content (`open(path).read()`); `none` when absent. -/
def fsRead (fs : FS) (path : String) : Option String :=
  (fs.find? (fun e => e.1 == path)).map (fun e => e.2)

/-- `os.path.join(directory, name)` for a relative `name`. -/
def pathJoin (dir name : String) : String := dir ++ "/" ++ name

/-! ## utils.py — step locking system -/

/-- `utils.STEP_DEPENDENCIES.get(step_id, [])`: declared prerequisite step
ids of each pipeline step (a chain 1 → … → 9); unknown ids give `[]`. -/
def STEP_DEPENDENCIES (step_id : Nat) : List Nat :=
  match step_id with
  | 1 => []
  | 2 => [1]
  | 3 => [2]
  | 4 => [3]
  | 5 => [4]
  | 6 => [5]
  | 7 => [6]
  | 8 => [7]
  | 9 => [8]
  | _ => []

/-- `utils.get_done_flag_path`: path of the `.done` flag file of a step. -/
def get_done_flag_path (step_id : Nat) (dir : String) : String :=
  pathJoin dir (".step" ++ toString step_id ++ ".done")

/-- `utils.is_step_complete`: a step is complete iff its `.done` flag file
exists in the working directory. -/
def is_step_complete (step_id : Nat) (dir : String) (fs : FS) : Bool :=
  fsExists fs (get_done_flag_path step_id dir)

/-- `utils.mark_step_complete`: write the `.done` flag file with a
timestamp line (`now` stands for `datetime.now().isoformat()`). -/
def mark_step_complete (step_id : Nat) (dir : String) (now : String) (fs : FS) : FS :=
  fsWrite fs (get_done_flag_path step_id dir) ("Completed: " ++ now ++ "\n")

/-- `utils.clear_step_flag`: remove the `.done` flag if it exists. -/
def clear_step_flag (step_id : Nat) (dir : String) (fs : FS) : FS :=
  let flag_path := get_done_flag_path step_id dir
  if fsExists fs flag_path then fsRemove fs flag_path else fs

/-- `utils.clear_all_flags`: `for step_id in range(1, 10): clear_step_flag(...)`. -/
def clear_all_flags (dir : String) (fs : FS) : FS :=
  (List.range' 1 9).foldl (fun acc step_id => clear_step_flag step_id dir acc) fs

/-- The accumulation loop inside `utils.check_step_dependencies`:
`for dep_id in deps: if not is_step_complete(dep_id): missing.append(dep_id)`. -/
def collectMissing (deps : List Nat) (dir : String) (fs : FS) : List Nat :=
  match deps with
  | [] => []
  | d :: rest =>
    if is_step_complete d dir fs then collectMissing rest dir fs
    else d :: collectMissing rest dir fs

/-- `utils.check_step_dependencies`: `(can_run, missing_steps)`. -/
def check_step_dependencies (step_id : Nat) (dir : String) (fs : FS) : Bool × List Nat :=
  let missing := collectMissing (STEP_DEPENDENCIES step_id) dir fs
  (missing.isEmpty, missing)

/-- The `outputs` table of `utils.check_output_exists` (note: distinct from
`config`'s `produces` lists — e.g. step 5 lists `em.tpr` here). -/
def outputsForStep (step_id : Nat) : List String :=
  match step_id with
  | 1 => ["protein.gro", "topol.top"]
  | 2 => ["complex.gro"]
  | 3 => ["complex_box.gro"]
  | 4 => ["complex_solv.gro"]
  | 5 => ["em.gro", "em.tpr"]
  | 6 => ["index.ndx"]
  | 7 => ["nvt.gro", "nvt.tpr"]
  | 8 => ["npt.gro", "npt.tpr"]
  | 9 => ["md.xtc", "md.tpr"]
  | _ => []

/-- `utils.check_output_exists`: `(exists, existing_files)` for resume
detection. -/
def check_output_exists (step_id : Nat) (dir : String) (fs : FS) : Bool × List String :=
  let existing := (outputsForStep step_id).filter (fun f => fsExists fs (pathJoin dir f))
  (!existing.isEmpty, existing)

/-! ## settings.py -/

/-- A JSON scalar as stored in the settings document.  `vdec i f` denotes
the decimal literal `i.f` (the claims never compute with these values). -/
inductive SettingVal where
  | vint (n : Int)
  | vdec (intPart : Int) (frac : String)
  | vstr (s : String)
deriving DecidableEq

/-- A settings dictionary (Python `dict`), as an ordered association list
with unique keys in the defaults. -/
abbrev Settings := List (String × SettingVal)

/-- `settings.DEFAULT_SETTINGS`. -/
def DEFAULT_SETTINGS : Settings :=
  [("md_length_ns", .vint 1),
   ("nvt_steps", .vint 50000),
   ("npt_steps", .vint 50000),
   ("temperature_k", .vint 300),
   ("pressure_bar", .vdec 1 "0"),
   ("dt_ps", .vdec 0 "002"),
   ("simulation_mode", .vstr "protein_only")]

/-- `settings.SETTINGS_FILE`. -/
def SETTINGS_FILE : String := ".gmxflow_settings.json"

/-- `settings.get_settings_path`. -/
def get_settings_path (dir : String) : String := pathJoin dir SETTINGS_FILE

/-- Dictionary lookup (`d[k]` presence as `Option`). -/
def dictGet (d : Settings) (k : String) : Option SettingVal :=
  (d.find? (fun e => e.1 == k)).map (fun e => e.2)

/-- One key assignment of Python `dict.update`: overwrite in place if the
key exists, otherwise append at the end. -/
def dictSet (d : Settings) (k : String) (v : SettingVal) : Settings :=
  if d.any (fun e => e.1 == k) then
    d.map (fun e => if e.1 == k then (k, v) else e)
  else d ++ [(k, v)]

/-- Python `base.copy(); base.update(upd)`. -/
def dictUpdate (base upd : Settings) : Settings :=
  upd.foldl (fun acc kv => dictSet acc kv.1 kv.2) base

/-- The JSON parser, as an oracle: `none` models `json.load` raising (file
unparseable, unreadable once opened, or not mergeable into a dict). -/
abbrev ParseOracle := String → Option Settings

/-- `settings.load_settings`: defaults when the file is absent or raises,
otherwise defaults merged with (overridden by) the loaded document. -/
def load_settings (parse : ParseOracle) (dir : String) (fs : FS) : Settings :=
  match fsRead fs (get_settings_path dir) with
  | none => DEFAULT_SETTINGS
  | some content =>
    match parse content with
    | some loaded => dictUpdate DEFAULT_SETTINGS loaded
    | none => DEFAULT_SETTINGS

/-- The last binding of key `k` in an association list (JSON objects and
Python dict iteration both give later duplicates precedence). -/
def lastVal : Settings → String → Option SettingVal
  | [], _ => none
  | kv :: rest, k =>
    match lastVal rest k with
    | some v => some v
    | none => if kv.1 == k then some kv.2 else none

/-! ## config.py — step registry -/

/-- `config.PipelineStep` (the fields the engine consumes; `blocking`,
`manual_intervention` and `post_steps` are advisory display data). -/
structure PipelineStep where
  id : Nat
  name : String
  command : String
  produces : List String := []
  user_input_required : Bool := false
deriving DecidableEq

/-- `config.PIPELINE_STEPS` (Protein + Ligand mode registry). -/
def PIPELINE_STEPS : List PipelineStep :=
  [{ id := 1, name := "Generate Protein Topology",
     command := "gmx pdb2gmx -f protein_only.pdb -o protein.gro -water spce -ignh",
     produces := ["protein.gro", "topol.top"], user_input_required := true },
   { id := 2, name := "Insert Ligand",
     command := "gmx insert-molecules -f protein.gro -ci ligand.gro -o complex.gro -nmol 1",
     produces := ["complex.gro"] },
   { id := 3, name := "Define Simulation Box",
     command := "gmx editconf -f complex.gro -o complex_box.gro -c -d 1.0 -bt cubic",
     produces := ["complex_box.gro"] },
   { id := 4, name := "Solvate System",
     command := "gmx solvate -cp complex_box.gro -cs spc216.gro -o complex_solv.gro -p topol.top",
     produces := ["complex_solv.gro"] },
   { id := 5, name := "Energy Minimization",
     command := "gmx grompp -f minim.mdp -c complex_solv.gro -p topol.top -o em.tpr -maxwarn 1 && gmx mdrun -v -deffnm em",
     produces := ["em.gro", "em.edr"] },
   { id := 6, name := "Index Generation",
     command := "echo -e \x271 | 13\\nq\x27 | gmx make_ndx -f em.gro -o index.ndx",
     produces := ["index.ndx"] },
   { id := 7, name := "NVT Equilibration",
     command := "gmx grompp -f nvt.mdp -c em.gro -r em.gro -p topol.top -n index.ndx -o nvt.tpr -maxwarn 1 && gmx mdrun -v -deffnm nvt",
     produces := ["nvt.gro", "nvt.edr"] },
   { id := 8, name := "NPT Equilibration",
     command := "gmx grompp -f npt.mdp -c nvt.gro -r nvt.gro -t nvt.cpt -p topol.top -n index.ndx -o npt.tpr -maxwarn 1 && gmx mdrun -v -deffnm npt",
     produces := ["npt.gro", "npt.edr"] },
   { id := 9, name := "Production MD",
     command := "gmx grompp -f md.mdp -c npt.gro -t npt.cpt -p topol.top -n index.ndx -o md.tpr -maxwarn 1 && gmx mdrun -v -deffnm md",
     produces := ["md.xtc", "md.edr", "md.gro"] }]

/-- `config.PROTEIN_PIPELINE_STEPS` (Protein Only mode registry). -/
def PROTEIN_PIPELINE_STEPS : List PipelineStep :=
  [{ id := 1, name := "Protein Preprocessing",
     command := "grep -v HOH Protein.pdb > clean.pdb",
     produces := ["clean.pdb"] },
   { id := 2, name := "Protein Topology Generation",
     command := "gmx pdb2gmx -f clean.pdb -o protein.gro -water spce -ignh",
     produces := ["protein.gro", "topol.top"], user_input_required := true },
   { id := 3, name := "Define Simulation Box",
     command := "gmx editconf -f protein.gro -o box.gro -c -d 1.0 -bt cubic",
     produces := ["box.gro"] },
   { id := 4, name := "Solvate System",
     command := "gmx solvate -cp box.gro -cs spc216.gro -o solve.gro -p topol.top",
     produces := ["solve.gro"] },
   { id := 5, name := "Add Ions (Neutralize)",
     command := "gmx grompp -f ions.mdp -c solve.gro -p topol.top -o ions.tpr -maxwarn 1 && gmx genion -s ions.tpr -o solve_ions.gro -p topol.top -pname NA -nname CL -neutral",
     produces := ["solve_ions.gro"], user_input_required := true },
   { id := 6, name := "Energy Minimization",
     command := "gmx grompp -f minim.mdp -c solve_ions.gro -p topol.top -o em.tpr -maxwarn 1 && gmx mdrun -v -deffnm em",
     produces := ["em.gro", "em.edr"] },
   { id := 7, name := "NVT Equilibration",
     command := "gmx grompp -f nvt.mdp -c em.gro -r em.gro -p topol.top -o nvt.tpr -maxwarn 1 && gmx mdrun -v -deffnm nvt",
     produces := ["nvt.gro", "nvt.edr"] },
   { id := 8, name := "NPT Equilibration",
     command := "gmx grompp -f npt.mdp -c nvt.gro -r nvt.gro -t nvt.cpt -p topol.top -o npt.tpr -maxwarn 1 && gmx mdrun -v -deffnm npt",
     produces := ["npt.gro", "npt.edr"] },
   { id := 9, name := "Production MD",
     command := "gmx grompp -f md.mdp -c npt.gro -t npt.cpt -p topol.top -o md.tpr -maxwarn 1 && gmx mdrun -v -deffnm md",
     produces := ["md.xtc", "md.edr", "md.gro"] }]

/-! ## pipeline.py — execution engine -/

/-- `pipeline.StepStatus`. -/
inductive StepStatus where
  | pending
  | running
  | complete
  | error
deriving DecidableEq

/-- `pipeline.StepResult`. -/
structure StepResult where
  step_id : Nat
  status : StepStatus
  return_code : Int
  stdout : String
  stderr : String
  error_message : Option String := none
deriving DecidableEq

/-- The outcome of actually running an external command: the exit code
the spawned process reports (0–255 through a shell), its two output
streams, and the file system it leaves behind. -/
structure ExecOutcome where
  exitCode : Nat
  stdoutLines : List String
  stderrLines : List String
  fsAfter : FS

/-- The external world as an oracle: running command `cmd` with current
working directory `cwd` on file system `fs` yields an `ExecOutcome`. -/
abbrev ExecOracle := (cwd : String) → (cmd : String) → FS → ExecOutcome

/-- Spawn failures of `subprocess.Popen` in captured mode: `some msg`
means the spawn raises with message `msg` (no process is started and the
file system is untouched). -/
abbrev SpawnOracle := (cmd : String) → FS → Option String

/-- The mutable state of `pipeline.PipelineExecutor`: its status table,
plus the (shared) file system and the ghost list of spawned commands. -/
structure PipelineExecutor where
  working_dir : String
  steps : List PipelineStep
  step_status : List (Nat × StepStatus)

/-- `PipelineExecutor.__init__`'s status table: every registered step
starts `PENDING`. -/
def initStatus (steps : List PipelineStep) : List (Nat × StepStatus) :=
  steps.map (fun s => (s.id, .pending))

/-- `PipelineExecutor.get_step`: first registered step with the id. -/
def get_step (ex : PipelineExecutor) (step_id : Nat) : Option PipelineStep :=
  ex.steps.find? (fun s => s.id == step_id)

/-- `PipelineExecutor.get_status` (dict `.get` with `PENDING` default). -/
def get_status (ex : PipelineExecutor) (step_id : Nat) : StepStatus :=
  match ex.step_status.find? (fun e => e.1 == step_id) with
  | some e => e.2
  | none => .pending

/-- `PipelineExecutor.set_status` (dict assignment). -/
def set_status (ex : PipelineExecutor) (step_id : Nat) (st : StepStatus) : PipelineExecutor :=
  { ex with step_status := (step_id, st) :: ex.step_status.filter (fun e => e.1 != step_id) }

/-- The executor state threaded through `execute_step`: the executor, the
file system, and the ghost spawn trace. -/
structure PipeState where
  ex : PipelineExecutor
  fs : FS
  spawned : List String

/-- `PipelineExecutor._run_interactive`: `os.system(f"cd {wd} && {cmd}")`.
On POSIX `os.system` returns the raw wait status, which for a normal exit
with code `c` (0–255) is `c * 256` (`c << 8`), not `c` itself. -/
def run_interactive (o : ExecOracle) (wd cmd : String) (fs : FS) :
    StepResult × FS × List String :=
  let full := "cd " ++ wd ++ " && " ++ cmd
  let out := o wd full fs
  let rc : Int := ((out.exitCode % 256) * 256 : Nat)
  ({ step_id := 0,
     status := if rc = 0 then .complete else .error,
     return_code := rc,
     stdout := "[Interactive mode - output shown in terminal]",
     stderr := "" }, out.fsAfter, [full])

/-- `PipelineExecutor._run_captured`: spawn with both streams piped (the
two reader threads are modelled by the oracle's line lists), wait, join,
and report the process's own exit code.  `Except.error` is the spawn
exception propagating out of `_run_captured`. -/
def run_captured (o : ExecOracle) (se : SpawnOracle) (wd cmd : String) (fs : FS) :
    Except String (StepResult × FS × List String) :=
  match se cmd fs with
  | some msg => .error msg
  | none =>
    let out := o wd cmd fs
    .ok ({ step_id := 0,
           status := if out.exitCode = 0 then .complete else .error,
           return_code := (out.exitCode : Int),
           stdout := String.intercalate "\n" out.stdoutLines,
           stderr := String.intercalate "\n" out.stderrLines }, out.fsAfter, [cmd])

/-- `PipelineExecutor.execute_step`: resolve the step (error result with
the `-1` sentinel and no spawn when unknown), mark it `RUNNING`, dispatch
to interactive or captured mode, mark `COMPLETE`/`ERROR` from the return
code, and catch any spawn exception as an `ERROR` result. -/
def execute_step (o : ExecOracle) (se : SpawnOracle) (ps : PipeState)
    (step_id : Nat) (interactive : Bool) : StepResult × PipeState :=
  match get_step ps.ex step_id with
  | none =>
    ({ step_id := step_id, status := .error, return_code := -1,
       stdout := "", stderr := "",
       error_message := some ("Invalid step ID: " ++ toString step_id) }, ps)
  | some step =>
    let ex1 := set_status ps.ex step_id .running
    match (if interactive then
             Except.ok (run_interactive o ps.ex.working_dir step.command ps.fs)
           else
             run_captured o se ps.ex.working_dir step.command ps.fs) with
    | .ok r =>
      let ex2 := if r.1.return_code = 0 then set_status ex1 step_id .complete
                 else set_status ex1 step_id .error
      ({ step_id := step_id, status := get_status ex2 step_id,
         return_code := r.1.return_code, stdout := r.1.stdout, stderr := r.1.stderr },
       ⟨ex2, r.2.1, ps.spawned ++ r.2.2⟩)
    | .error msg =>
      ({ step_id := step_id, status := .error, return_code := -1,
         stdout := "", stderr := "", error_message := some msg },
       ⟨set_status ex1 step_id .error, ps.fs, ps.spawned⟩)

/-! ## utils.py — topology patching (called by the controller after step 4
in protein-ligand mode) -/

/-- Python's `needle in hay` substring test. -/
def strContains (hay needle : String) : Bool :=
  (hay.splitOn needle).length != 1

/-- Python's `str.split()` (split on whitespace runs, drop empties). -/
def pyWords (s : String) : List String :=
  (s.split (fun c => c.isWhitespace)).filter (fun w => w != "")

/-- The line scan of `utils.get_ligand_name_from_itp`: first data line
after `[ moleculetype ]`. -/
def scanMoleculeType : List String → Bool → Option String
  | [], _ => none
  | line :: rest, inSec =>
    let l := line.trim
    if l.startsWith "[ moleculetype ]" then scanMoleculeType rest true
    else if inSec && l != "" && !(l.startsWith ";") && !(l.startsWith "[") then
      match (pyWords l).head? with
      | some w => some w
      | none => scanMoleculeType rest inSec
    else scanMoleculeType rest inSec

/-- `utils.get_ligand_name_from_itp`. -/
def get_ligand_name_from_itp (fs : FS) (itp_path : String) : Option String :=
  match fsRead fs itp_path with
  | none => none
  | some content => scanMoleculeType (content.splitOn "\n") false

/-- Python `f"\x7bs:<20\x7d"`: left-justify to width 20. -/
def padTo20 (s : String) : String :=
  s ++ String.mk (List.replicate (20 - s.length) ' ')

/-- First pass of `utils.patch_topology_for_ligand`: copy the lines,
inserting the ligand include after the forcefield include, and record
whether a `[ molecules ]` section header was seen. -/
def patchPass1 (include_line : String) : List String → Bool → Bool → List String × Bool
  | [], _, molFlag => ([], molFlag)
  | line :: rest, ffFound, molFlag =>
    let ffHere := !ffFound && strContains line "#include" && strContains line "forcefield.itp"
    let molFlag1 := molFlag || strContains line "[ molecules ]"
    let tailRes := patchPass1 include_line rest (ffFound || ffHere) molFlag1
    (if ffHere then
       line :: "; Include ligand topology" :: include_line :: "" :: tailRes.1
     else line :: tailRes.1, tailRes.2)

/-- Second pass of `utils.patch_topology_for_ligand`: insert the ligand
molecule entry before the first `SOL` line of the molecules section. -/
def patchPass2 (ligEntry : String) (molSection : Bool) : List String → Bool → List String × Bool
  | [], added => ([], added)
  | line :: rest, added =>
    if molSection && (line.trim.startsWith "SOL") && !added then
      let t := patchPass2 ligEntry molSection rest true
      (ligEntry :: line :: t.1, t.2)
    else
      let t := patchPass2 ligEntry molSection rest added
      (line :: t.1, t.2)

/-- `utils.patch_topology_for_ligand`: add `#include "ligand.itp"` and a
ligand entry to `topol.top`; returns `(success, message)` and the new
file system. -/
def patch_topology_for_ligand (topol_path ligand_itp : String)
    (ligand_name : Option String) (dir : String) (fs : FS) : (Bool × String) × FS :=
  let full_topol := pathJoin dir topol_path
  let full_itp := pathJoin dir ligand_itp
  if !(fsExists fs full_topol) then
    ((false, "Topology file not found: " ++ topol_path), fs)
  else if !(fsExists fs full_itp) then
    ((false, "Ligand ITP not found: " ++ ligand_itp), fs)
  else
    let name := match ligand_name with
      | some n => n
      | none => (get_ligand_name_from_itp fs full_itp).getD "UNK"
    let lines := ((fsRead fs full_topol).getD "").splitOn "\n"
    let include_line := "#include \"" ++ ligand_itp ++ "\""
    if lines.any (fun l => strContains l include_line) then
      ((true, "Topology already contains " ++ ligand_itp), fs)
    else
      let p1 := patchPass1 include_line lines false false
      let ligEntry := padTo20 name ++ " 1"
      let p2 := patchPass2 ligEntry p1.2 p1.1 false
      let final_lines := if p2.2 then p2.1 else p2.1 ++ [ligEntry]
      ((true, "Patched topology: added " ++ ligand_itp ++ " and " ++ name ++ " molecule"),
       fsWrite fs full_topol (String.intercalate "\n" final_lines))

/-! ## gmxflow.py — pipeline controller -/

/-- The per-session configuration of `GmxFlowApp`, fixed for the whole
run: working directory, simulation mode, the dry-run switch, the step
registry in declared order, the timestamp used for completion records,
and the external-world oracles. -/
structure AppConfig where
  working_dir : String
  mode : String
  dry_run : Bool
  now : String
  current_steps : List PipelineStep
  exec : ExecOracle
  spawnErr : SpawnOracle

/-- The mutable session state: executor status table, file system, ghost
spawn trace, and the stream of pending yes/no answers of the operator
(each `confirm` prompt consumes one; an exhausted stream answers no). -/
structure AppState where
  executor : PipelineExecutor
  fs : FS
  spawned : List String
  answers : List Bool

/-- `os.system` as used by the app's visualization prompts: run the
command line, record the spawn, and take the oracle's file system. -/
def state_os_system (cfg : AppConfig) (st : AppState) (cmdline : String) : AppState :=
  { st with fs := (cfg.exec cfg.working_dir cmdline st.fs).fsAfter,
            spawned := st.spawned ++ [cmdline] }

/-- One block of `GmxFlowApp._offer_post_step_viz`: if every trigger file
exists, ask the operator and, on yes, run the extraction command(s). -/
def vizBlock (cfg : AppConfig) (st : AppState) (triggers cmds : List String) : AppState :=
  if triggers.all (fun t => fsExists st.fs (pathJoin cfg.working_dir t)) then
    if st.answers.headD false then
      cmds.foldl (fun s c => state_os_system cfg s c) { st with answers := st.answers.tail }
    else { st with answers := st.answers.tail }
  else st

/-- `GmxFlowApp._offer_post_step_viz`: the post-success visualization
offers (energy/temperature/pressure extraction, VMD launch). -/
def offer_post_step_viz (cfg : AppConfig) (st : AppState) (step_id : Nat) : AppState :=
  let st1 :=
    if step_id = 6 && cfg.mode == "protein_only" then
      vizBlock cfg st ["em.edr"]
        ["cd " ++ cfg.working_dir ++ " && echo \x2710\n0\x27 | gmx energy -f em.edr -o potential.xvg"]
    else st
  let st2 :=
    if step_id = 5 && cfg.mode == "protein_ligand" then
      vizBlock cfg st1 ["em.edr"]
        ["cd " ++ cfg.working_dir ++ " && echo \x2710\n0\x27 | gmx energy -f em.edr -o potential.xvg"]
    else st1
  let st3 :=
    if step_id = 7 then
      vizBlock cfg st2 ["nvt.edr"]
        ["cd " ++ cfg.working_dir ++ " && echo \x2716\n0\x27 | gmx energy -f nvt.edr -o temperature.xvg"]
    else st2
  let st4 :=
    if step_id = 8 then
      vizBlock cfg st3 ["npt.edr"]
        ["cd " ++ cfg.working_dir ++ " && echo \x2718\n0\x27 | gmx energy -f npt.edr -o pressure.xvg",
         "cd " ++ cfg.working_dir ++ " && echo \x2724\n0\x27 | gmx energy -f npt.edr -o density.xvg"]
    else st3
  if step_id = 9 then
    vizBlock cfg st4 ["md.xtc", "md.gro"]
      ["cd " ++ cfg.working_dir ++ " && vmd md.gro md.xtc &"]
  else st4

/-- `GmxFlowApp.run_pipeline_step`: resolve the step, gate on
dependencies, warn on pre-existing outputs (one confirmation), in dry-run
mode stop after displaying the command, otherwise execute, and on a
`COMPLETE` result write the completion record, auto-patch the topology
after step 4 in protein-ligand mode, and offer visualizations.  Returns
whether the step succeeded. -/
def app_run_pipeline_step (cfg : AppConfig) (st : AppState) (step_id : Nat) : Bool × AppState :=
  match get_step st.executor step_id with
  | none => (false, st)
  | some step =>
    if !(check_step_dependencies step_id cfg.working_dir st.fs).1 then (false, st)
    else
      let outputs_exist := (check_output_exists step_id cfg.working_dir st.fs).1
      let proceed := if outputs_exist then st.answers.headD false else true
      let st1 := if outputs_exist then { st with answers := st.answers.tail } else st
      if !proceed then (false, st1)
      else if cfg.dry_run then (true, st1)
      else
        let er := execute_step cfg.exec cfg.spawnErr
          ⟨st1.executor, st1.fs, st1.spawned⟩ step_id step.user_input_required
        let st2 : AppState :=
          { st1 with executor := er.2.ex, fs := er.2.fs, spawned := er.2.spawned }
        if er.1.status = .complete then
          let st3 := { st2 with fs := mark_step_complete step_id cfg.working_dir cfg.now st2.fs }
          let st4 :=
            if step_id = 4 && cfg.mode == "protein_ligand" then
              { st3 with
                fs := (patch_topology_for_ligand "topol.top" "ligand.itp" none cfg.working_dir st3.fs).2 }
            else st3
          (true, offer_post_step_viz cfg st4 step_id)
        else (false, st2)

/-- One observable event of a batch run. -/
inductive PipeEvent where
  | dryShown (id : Nat)
  | skipped (id : Nat)
  | attempted (id : Nat) (success : Bool)
deriving DecidableEq

/-- The step id an event concerns. -/
def PipeEvent.stepId : PipeEvent → Nat
  | .dryShown i => i
  | .skipped i => i
  | .attempted i _ => i

/-- Result of a batch run: the per-step events in order, the id of the
step reported as halting the pipeline (`Pipeline halted at step N`), and
the final session state. -/
structure BatchResult where
  trace : List PipeEvent
  halted : Option Nat
  final : AppState

/-- The loop body of `GmxFlowApp.run_full_pipeline`: iterate the steps in
declared order; in dry-run mode only display each command; skip a step
whose completion record exists; otherwise attempt it and stop the whole
sequence on failure, reporting the halting step. -/
def run_full_loop (cfg : AppConfig) (st : AppState) : List PipelineStep → BatchResult
  | [] => ⟨[], none, st⟩
  | step :: rest =>
    if cfg.dry_run then
      ⟨.dryShown step.id :: (run_full_loop cfg st rest).trace,
       (run_full_loop cfg st rest).halted,
       (run_full_loop cfg st rest).final⟩
    else if is_step_complete step.id cfg.working_dir st.fs then
      ⟨.skipped step.id :: (run_full_loop cfg st rest).trace,
       (run_full_loop cfg st rest).halted,
       (run_full_loop cfg st rest).final⟩
    else if (app_run_pipeline_step cfg st step.id).1 then
      ⟨.attempted step.id true ::
         (run_full_loop cfg (app_run_pipeline_step cfg st step.id).2 rest).trace,
       (run_full_loop cfg (app_run_pipeline_step cfg st step.id).2 rest).halted,
       (run_full_loop cfg (app_run_pipeline_step cfg st step.id).2 rest).final⟩
    else ⟨[.attempted step.id false], some step.id, (app_run_pipeline_step cfg st step.id).2⟩

/-- `GmxFlowApp.run_full_pipeline`: run the loop over the registry. -/
def run_full_pipeline (cfg : AppConfig) (st : AppState) : BatchResult :=
  run_full_loop cfg st cfg.current_steps

/-! ## Concrete inputs used by the witnesses and counterexamples -/

/-- An execution oracle whose command always exits with code 1. -/
def c2oracle : ExecOracle := fun _ _ _ => ⟨1, [], [], []⟩

/-- A spawn oracle that never fails. -/
def c2spawn : SpawnOracle := fun _ _ => none

/-- A fresh executor over the protein-ligand registry. -/
def c2ps : PipeState := ⟨⟨".", PIPELINE_STEPS, initStatus PIPELINE_STEPS⟩, [], []⟩

/-- Registry entry of step 2 of the protein-ligand registry. -/
def c2step2 : PipelineStep :=
  { id := 2, name := "Insert Ligand",
    command := "gmx insert-molecules -f protein.gro -ci ligand.gro -o complex.gro -nmol 1",
    produces := ["complex.gro"] }

/-- A file system where the out-of-range step id 10 was marked complete. -/
def c4fs10 : FS := mark_step_complete 10 "." "2026-01-01T00:00:00" []

/-- A file system where step 3 was marked complete. -/
def c4fs3 : FS := mark_step_complete 3 "." "2026-01-01T00:00:00" []

/-- A config for a live (non-dry) batch run whose commands all exit 0. -/
def c5cfg : AppConfig :=
  { working_dir := ".", mode := "protein_only", dry_run := false, now := "t0",
    current_steps := PROTEIN_PIPELINE_STEPS,
    exec := fun _ _ fs => ⟨0, [], [], fs⟩, spawnErr := fun _ _ => none }

/-- A fresh session state over the protein-only registry. -/
def c5st : AppState :=
  ⟨⟨".", PROTEIN_PIPELINE_STEPS, initStatus PROTEIN_PIPELINE_STEPS⟩, [], [], []⟩

/-- The same config as `c5cfg` but with the dry-run switch on. -/
def c6cfg : AppConfig :=
  { working_dir := ".", mode := "protein_only", dry_run := true, now := "t0",
    current_steps := PROTEIN_PIPELINE_STEPS,
    exec := fun _ _ fs => ⟨0, [], [], fs⟩, spawnErr := fun _ _ => none }

/-- A session state with a pending answer, over the protein-only registry. -/
def c6st : AppState :=
  ⟨⟨".", PROTEIN_PIPELINE_STEPS, initStatus PROTEIN_PIPELINE_STEPS⟩, [], [], [true]⟩

/-- An execution oracle whose command always exits 0 and leaves the file
system unchanged. -/
def c7oracle : ExecOracle := fun _ _ fs => ⟨0, [], [], fs⟩

/-- A spawn oracle that always fails to start the process. -/
def c7se_fail : SpawnOracle := fun _ _ => some "FileNotFoundError: sh"

/-- An executor with an empty registry (every lookup misses). -/
def c7ps_empty : PipeState := ⟨⟨".", [], []⟩, [], []⟩

/-- A fresh executor over the protein-ligand registry. -/
def c7ps : PipeState := ⟨⟨".", PIPELINE_STEPS, initStatus PIPELINE_STEPS⟩, [], []⟩

/-- Registry entry of step 1 of the protein-ligand registry. -/
def c7step1 : PipelineStep :=
  { id := 1, name := "Generate Protein Topology",
    command := "gmx pdb2gmx -f protein_only.pdb -o protein.gro -water spce -ignh",
    produces := ["protein.gro", "topol.top"], user_input_required := true }

/-- An execution oracle for the C9 witness. -/
def c9oracle : ExecOracle := fun _ _ fs => ⟨0, [], [], fs⟩

/-- A spawn oracle for the C9 witness. -/
def c9spawn : SpawnOracle := fun _ _ => none

/-- A fresh executor over the protein-only registry. -/
def c9ps : PipeState := ⟨⟨".", PROTEIN_PIPELINE_STEPS, initStatus PROTEIN_PIPELINE_STEPS⟩, [], []⟩

/-- A parse oracle returning a fixed partial settings document. -/
def c10parse : ParseOracle :=
  fun _ => some [("md_length_ns", .vint 7), ("extra_key", .vstr "x")]

/-- A file system holding a settings document in the working directory. -/
def c10fs : FS := [(pathJoin "." SETTINGS_FILE, "doc")]

/-! ## Helper lemmas about the file-system model -/

theorem fsExists_fsWrite_self (fs : FS) (p c : String) :
    fsExists (fsWrite fs p c) p = true := by
  simp [fsExists, fsWrite]

theorem fsWrite_fsWrite_self (fs : FS) (p c c' : String) :
    fsWrite (fsWrite fs p c) p c' = fsWrite fs p c' := by
  unfold fsWrite
  have h1 : ((p, c).1 != p) = false := by simp
  rw [List.filter_cons, h1]
  simp [List.filter_filter]

theorem fsExists_filter (fs : FS) (p : String) (q : String × String → Bool)
    (h : fsExists fs p = false) : fsExists (fs.filter q) p = false := by
  induction fs with
  | nil => rfl
  | cons e t ih =>
    simp only [fsExists, List.any_cons, Bool.or_eq_false_iff] at h
    rw [List.filter_cons]
    by_cases hq : q e
    · simp only [hq, if_true]
      simp only [fsExists, List.any_cons, Bool.or_eq_false_iff]
      exact ⟨h.1, ih h.2⟩
    · simp only [hq]
      simp only [Bool.false_eq_true, if_false]
      exact ih h.2

theorem fsExists_fsRemove_self (fs : FS) (p : String) :
    fsExists (fsRemove fs p) p = false := by
  induction fs with
  | nil => rfl
  | cons e t ih =>
    unfold fsRemove at *
    rw [List.filter_cons]
    by_cases he : e.1 == p
    · have : (e.1 != p) = false := by simp [bne, he]
      simp only [this, Bool.false_eq_true, if_false]
      exact ih
    · have : (e.1 != p) = true := by simp [bne, he]
      simp only [this, if_true]
      simp only [fsExists, List.any_cons, Bool.or_eq_false_iff]
      exact ⟨by simpa using he, ih⟩

/-! ## Helper lemmas about the completion-flag store -/

theorem clear_step_flag_clears (i : Nat) (dir : String) (fs : FS) :
    is_step_complete i dir (clear_step_flag i dir fs) = false := by
  unfold clear_step_flag is_step_complete
  by_cases h : fsExists fs (get_done_flag_path i dir)
  · simp only [h, if_true]
    exact fsExists_fsRemove_self fs _
  · simp only [h]
    simpa using h

theorem clear_step_flag_preserves_absent (j i : Nat) (dir : String) (fs : FS)
    (h : is_step_complete i dir fs = false) :
    is_step_complete i dir (clear_step_flag j dir fs) = false := by
  unfold clear_step_flag
  by_cases hj : fsExists fs (get_done_flag_path j dir)
  · simp only [hj, if_true]
    exact fsExists_filter fs _ _ h
  · simpa [hj] using h

theorem clear_step_flag_absent (j : Nat) (dir : String) (fs : FS)
    (h : is_step_complete j dir fs = false) :
    clear_step_flag j dir fs = fs := by
  unfold clear_step_flag
  unfold is_step_complete at h
  simp [h]

theorem foldl_clear_absent (l : List Nat) (i : Nat) (dir : String) :
    ∀ fs : FS, is_step_complete i dir fs = false →
      is_step_complete i dir
        (l.foldl (fun acc step_id => clear_step_flag step_id dir acc) fs) = false := by
  induction l with
  | nil => intro fs h; exact h
  | cons j t ih =>
    intro fs h
    exact ih _ (clear_step_flag_preserves_absent j i dir fs h)

theorem foldl_clear_mem (l : List Nat) (i : Nat) (dir : String) :
    ∀ fs : FS, i ∈ l →
      is_step_complete i dir
        (l.foldl (fun acc step_id => clear_step_flag step_id dir acc) fs) = false := by
  induction l with
  | nil => intro fs h; cases h
  | cons j t ih =>
    intro fs h
    rcases List.mem_cons.mp h with rfl | hmem
    · exact foldl_clear_absent t i dir _ (clear_step_flag_clears i dir fs)
    · exact ih _ hmem

theorem foldl_clear_of_all_absent (l : List Nat) (dir : String) :
    ∀ fs : FS, (∀ j ∈ l, is_step_complete j dir fs = false) →
      l.foldl (fun acc step_id => clear_step_flag step_id dir acc) fs = fs := by
  induction l with
  | nil => intro fs _; rfl
  | cons j t ih =>
    intro fs h
    have hj := h j (List.mem_cons_self j t)
    simp only [List.foldl_cons, clear_step_flag_absent j dir fs hj]
    exact ih fs (fun m hm => h m (List.mem_cons_of_mem j hm))

/-! ## Helper lemmas about the dependency gate -/

theorem collectMissing_eq_filter (dir : String) (fs : FS) :
    ∀ deps : List Nat,
      collectMissing deps dir fs = deps.filter (fun d => !(is_step_complete d dir fs)) := by
  intro deps
  induction deps with
  | nil => rfl
  | cons d rest ih =>
    by_cases h : is_step_complete d dir fs
    · simp [collectMissing, h, ih, List.filter_cons]
    · simp [collectMissing, h, ih, List.filter_cons]

theorem filter_not_isEmpty_eq_all (p : Nat → Bool) :
    ∀ l : List Nat, (l.filter (fun d => !(p d))).isEmpty = l.all p := by
  intro l
  induction l with
  | nil => rfl
  | cons d rest ih =>
    by_cases h : p d
    · simpa [List.filter_cons, h] using ih
    · simp [List.filter_cons, h]

/-! ## Claim theorems -/

/-- Claim C1: for every step identifier and working-directory state, the
dependency gate `check_step_dependencies` returns as its missing list
exactly the declared prerequisites without a completion record, in
declared order, and returns `can_run = true` exactly when every declared
prerequisite has a completion record (hence `false` whenever at least one
is missing, and `(true, [])` when all are complete). -/
theorem c1_check_step_dependencies (step_id : Nat) (dir : String) (fs : FS) :
    (check_step_dependencies step_id dir fs).2 =
      (STEP_DEPENDENCIES step_id).filter (fun d => !(is_step_complete d dir fs)) ∧
    (check_step_dependencies step_id dir fs).1 =
      (STEP_DEPENDENCIES step_id).all (fun d => is_step_complete d dir fs) := by
  constructor
  · simp [check_step_dependencies, collectMissing_eq_filter]
  · simp [check_step_dependencies, collectMissing_eq_filter,
      filter_not_isEmpty_eq_all (fun d => is_step_complete d dir fs)]

/-- Claim C3: marking a step complete makes `is_step_complete` true; the
record is a plain file of the (explicitly threaded) file-system state, so
any later query against the same directory and file system — including by
a fresh process — sees it; marking twice raises no error and last write
wins (the double mark equals a single mark with the later timestamp). -/
theorem c3_mark_step_complete (step_id : Nat) (dir now now2 : String) (fs : FS) :
    is_step_complete step_id dir (mark_step_complete step_id dir now fs) = true ∧
    is_step_complete step_id dir
      (mark_step_complete step_id dir now2 (mark_step_complete step_id dir now fs)) = true ∧
    mark_step_complete step_id dir now2 (mark_step_complete step_id dir now fs) =
      mark_step_complete step_id dir now2 fs := by
  refine ⟨?_, ?_, ?_⟩
  · exact fsExists_fsWrite_self _ _ _
  · exact fsExists_fsWrite_self _ _ _
  · exact fsWrite_fsWrite_self fs _ _ _

/-- Claim C4 counterexample: `clear_all_flags` only iterates step ids 1
through 9 (`range(1, 10)`), so a completion record previously written for
step id 10 survives it: the claim's universal quantification over every
previously marked step identifier fails. -/
theorem c4_counterexample :
    is_step_complete 10 "." (clear_all_flags "." c4fs10) = true := by decide

/-- Claim C4 (amended): after `clear_all_flags`, `is_step_complete` is
false for every previously marked step identifier in the range 1–9 (the
ids the loop `range(1, 10)` covers); clearing is idempotent; and clearing
an already absent flag raises no error and leaves the store unchanged. -/
theorem c4_clear_all_flags (step_id : Nat) (dir : String) (fs : FS)
    (h1 : 1 ≤ step_id) (h2 : step_id ≤ 9) :
    is_step_complete step_id dir (clear_all_flags dir fs) = false ∧
    clear_all_flags dir (clear_all_flags dir fs) = clear_all_flags dir fs ∧
    (∀ j, is_step_complete j dir fs = false → clear_step_flag j dir fs = fs) := by
  refine ⟨?_, ?_, ?_⟩
  · have hmem : step_id ∈ List.range' 1 9 := by
      interval_cases step_id <;> decide
    exact foldl_clear_mem _ step_id dir fs hmem
  · unfold clear_all_flags
    exact foldl_clear_of_all_absent _ dir _
      (fun j hj => foldl_clear_mem _ j dir fs hj)
  · exact fun j hj => clear_step_flag_absent j dir fs hj

/-- Claim C4 witness: a concrete in-range flag (step 3) is gone after
`clear_all_flags`. -/
theorem c4_witness :
    (1 ≤ 3 ∧ 3 ≤ 9) ∧ is_step_complete 3 "." (clear_all_flags "." c4fs3) = false :=
  ⟨by decide, (c4_clear_all_flags 3 "." c4fs3 (by decide) (by decide)).1⟩

/-! ## Helper lemmas about the execution engine -/

theorem get_status_set_self (ex : PipelineExecutor) (step_id : Nat) (st : StepStatus) :
    get_status (set_status ex step_id st) step_id = st := by
  simp [get_status, set_status, List.find?_cons]

/-! ## Helper lemmas about the settings dictionary -/

theorem dictGet_map_ne (d : Settings) (k1 : String) (v : SettingVal) (k : String)
    (hk : (k1 == k) = false) :
    dictGet (d.map (fun e => if e.1 == k1 then (k1, v) else e)) k = dictGet d k := by
  induction d with
  | nil => rfl
  | cons e t ih =>
    simp only [dictGet, List.map_cons, List.find?_cons] at ih ⊢
    by_cases he : e.1 == k1
    · have hek : (e.1 == k) = false := by
        have h1 : e.1 = k1 := by simpa using he
        simpa [h1] using hk
      simp only [he, if_true, hk, hek]
      exact ih
    · simp only [he, Bool.false_eq_true, if_false]
      by_cases hek : e.1 == k
      · simp [hek]
      · simp only [hek]
        exact ih

theorem dictGet_map_eq (d : Settings) (k1 : String) (v : SettingVal)
    (hany : d.any (fun e => e.1 == k1) = true) :
    dictGet (d.map (fun e => if e.1 == k1 then (k1, v) else e)) k1 = some v := by
  induction d with
  | nil => cases hany
  | cons e t ih =>
    simp only [dictGet, List.map_cons, List.find?_cons] at ih ⊢
    by_cases he : e.1 == k1
    · simp [he]
    · simp only [List.any_cons, he, Bool.false_or] at hany
      simp only [he, Bool.false_eq_true, if_false]
      exact ih hany

theorem dictGet_dictSet (d : Settings) (k1 : String) (v : SettingVal) (k : String) :
    dictGet (dictSet d k1 v) k = if k1 == k then some v else dictGet d k := by
  unfold dictSet
  by_cases hany : d.any (fun e => e.1 == k1)
  · rw [if_pos hany]
    by_cases hk : k1 == k
    · have hkk : k1 = k := by simpa using hk
      subst hkk
      rw [if_pos hk]
      exact dictGet_map_eq d k1 v hany
    · rw [if_neg hk]
      exact dictGet_map_ne d k1 v k (by simpa using hk)
  · rw [if_neg hany]
    have h0 : d.any (fun e => e.1 == k1) = false := by
      cases hh : d.any (fun e => e.1 == k1)
      · rfl
      · exact absurd hh hany
    simp only [dictGet, List.find?_append]
    by_cases hk : k1 == k
    · have hkk : k1 = k := by simpa using hk
      subst hkk
      have hnone : d.find? (fun e => e.1 == k1) = none :=
        List.find?_eq_none.mpr (List.any_eq_false.mp h0)
      simp [hnone, List.find?_cons, hk]
    · have h2 : List.find? (fun e => e.1 == k) [(k1, v)] = none := by
        simp [List.find?_cons, hk]
      rw [h2]
      simp only [hk, Bool.false_eq_true, if_false]
      cases d.find? (fun e => e.1 == k) <;> rfl

theorem dictGet_dictUpdate (k : String) :
    ∀ (upd acc : Settings),
      dictGet (dictUpdate acc upd) k =
        match lastVal upd k with
        | some v => some v
        | none => dictGet acc k := by
  intro upd
  induction upd with
  | nil => intro acc; rfl
  | cons kv rest ih =>
    intro acc
    have step : dictUpdate acc (kv :: rest) = dictUpdate (dictSet acc kv.1 kv.2) rest := rfl
    rw [step, ih]
    cases hl : lastVal rest k with
    | some v => simp [lastVal, hl]
    | none =>
      rw [dictGet_dictSet]
      by_cases hk : kv.1 == k
      · simp [lastVal, hl, hk]
      · simp [lastVal, hl, hk]

/-- Claim C10: `load_settings` is total (a pure function of the
file-system state and the parse outcome): an absent settings file yields
exactly the defaults; a file whose parse raises yields exactly the
defaults; a parseable file yields the defaults overridden by the file's
bindings — a key present in the file takes the file's (last) value and
every other key keeps its default — so every key of `DEFAULT_SETTINGS` is
present in the result in all cases. -/
theorem c10_load_settings (parse : ParseOracle) (dir : String) (fs : FS) :
    (fsRead fs (get_settings_path dir) = none →
       load_settings parse dir fs = DEFAULT_SETTINGS) ∧
    (∀ c, fsRead fs (get_settings_path dir) = some c → parse c = none →
       load_settings parse dir fs = DEFAULT_SETTINGS) ∧
    (∀ c loaded, fsRead fs (get_settings_path dir) = some c → parse c = some loaded →
       ∀ k, dictGet (load_settings parse dir fs) k =
         match lastVal loaded k with
         | some v => some v
         | none => dictGet DEFAULT_SETTINGS k) ∧
    (∀ k, (dictGet DEFAULT_SETTINGS k).isSome = true →
       (dictGet (load_settings parse dir fs) k).isSome = true) := by
  refine ⟨?_, ?_, ?_, ?_⟩
  · intro h; simp [load_settings, h]
  · intro c h hp; simp [load_settings, h, hp]
  · intro c loaded h hp k
    simp only [load_settings, h, hp]
    exact dictGet_dictUpdate k loaded DEFAULT_SETTINGS
  · intro k hdef
    cases hr : fsRead fs (get_settings_path dir) with
    | none => simpa [load_settings, hr] using hdef
    | some c =>
      cases hp : parse c with
      | none => simpa [load_settings, hr, hp] using hdef
      | some loaded =>
        simp only [load_settings, hr, hp]
        rw [dictGet_dictUpdate k loaded DEFAULT_SETTINGS]
        cases hl : lastVal loaded k with
        | some v => rfl
        | none => exact hdef

/-- Claim C10 witness: with a settings file whose parse yields a partial
document, the file's key takes the file's value and an untouched key
keeps its default. -/
theorem c10_witness :
    fsRead c10fs (get_settings_path ".") = some "doc" ∧
    c10parse "doc" = some [("md_length_ns", .vint 7), ("extra_key", .vstr "x")] ∧
    dictGet (load_settings c10parse "." c10fs) "md_length_ns" = some (.vint 7) ∧
    dictGet (load_settings c10parse "." c10fs) "temperature_k" = some (.vint 300) := by
  refine ⟨rfl, rfl, ?_, ?_⟩
  · have h := (c10_load_settings c10parse "." c10fs).2.2.1 "doc"
      [("md_length_ns", .vint 7), ("extra_key", .vstr "x")] rfl rfl "md_length_ns"
    rw [h]; rfl
  · have h := (c10_load_settings c10parse "." c10fs).2.2.1 "doc"
      [("md_length_ns", .vint 7), ("extra_key", .vstr "x")] rfl rfl "temperature_k"
    rw [h]; rfl

/-- Claim C2 counterexample: in interactive mode the engine records
`os.system`'s raw POSIX wait status, not the command's exit code — for
registry step 1 (an interactive step) whose command exits with code 1,
`execute_step` returns status Error but `return_code = 256`, refuting the
claim that the exact numeric exit code 1 is preserved in both modes. -/
theorem c2_counterexample :
    (execute_step c2oracle c2spawn c2ps 1 true).1.status = StepStatus.error ∧
    (execute_step c2oracle c2spawn c2ps 1 true).1.return_code = 256 ∧
    ¬((execute_step c2oracle c2spawn c2ps 1 true).1.return_code = 1) := by
  refine ⟨by decide, by decide, by decide⟩

/-- Claim C2 (amended): for every step the executor resolves, captured
mode preserves the process's exact exit code (`Complete` iff it is 0,
`Error` with that very code otherwise), and neither mode raises; but
interactive mode stores `os.system`'s raw wait status — on POSIX an exit
code `c < 256` is reported as `c * 256` (`c << 8`) — so its status is
still `Complete` iff `c = 0` while `return_code` is `c * 256`, not `c`. -/
theorem c2_execute_step_exit_code (o : ExecOracle) (se : SpawnOracle) (ps : PipeState)
    (step_id : Nat) (step : PipelineStep) (h : get_step ps.ex step_id = some step) :
    (se step.command ps.fs = none →
      (execute_step o se ps step_id false).1.return_code =
        ((o ps.ex.working_dir step.command ps.fs).exitCode : Int) ∧
      (execute_step o se ps step_id false).1.status =
        (if (o ps.ex.working_dir step.command ps.fs).exitCode = 0
         then StepStatus.complete else StepStatus.error)) ∧
    (∀ c,
      (o ps.ex.working_dir ("cd " ++ ps.ex.working_dir ++ " && " ++ step.command) ps.fs).exitCode = c →
      c < 256 →
      (execute_step o se ps step_id true).1.return_code = ((c * 256 : Nat) : Int) ∧
      (execute_step o se ps step_id true).1.status =
        (if c = 0 then StepStatus.complete else StepStatus.error)) := by
  constructor
  · intro hse
    simp only [execute_step, h, Bool.false_eq_true, if_false, run_captured, hse]
    by_cases hc : (o ps.ex.working_dir step.command ps.fs).exitCode = 0
    · simp [hc, get_status_set_self]
    · have hci : ¬(((o ps.ex.working_dir step.command ps.fs).exitCode : Int) = 0) := by
        simpa [Int.natCast_eq_zero] using hc
      simp [hc, hci, get_status_set_self]
  · intro c hc hlt
    simp only [execute_step, h, if_true, run_interactive, hc]
    rw [Nat.mod_eq_of_lt hlt]
    by_cases hz : c = 0
    · simp [hz, get_status_set_self]
    · have hnz : ¬(((c * 256 : Nat) : Int) = 0) := by
        simp [Int.natCast_eq_zero, hz]
      simp [hz, hnz, get_status_set_self]

/-- Claim C2 witness: for registry step 2 in captured mode, a command
exiting 1 yields status Error with `return_code = 1` preserved exactly. -/
theorem c2_witness :
    get_step c2ps.ex 2 = some c2step2 ∧
    c2spawn c2step2.command c2ps.fs = none ∧
    (execute_step c2oracle c2spawn c2ps 2 false).1.return_code = 1 ∧
    (execute_step c2oracle c2spawn c2ps 2 false).1.status = StepStatus.error := by
  have h := (c2_execute_step_exit_code c2oracle c2spawn c2ps 2 c2step2 (by decide)).1 rfl
  refine ⟨by decide, rfl, ?_, ?_⟩
  · rw [h.1]; rfl
  · rw [h.2]; rfl

/-- Claim C7: an unknown step identifier yields an `Error` result whose
message names the offending id, with the executor state — in particular
the ghost spawn trace — untouched (no process is spawned), in either
mode; a captured-mode spawn failure yields `Error` with the exception's
message and the `-1` sentinel, again spawning nothing; and every result
from a process that actually ran carries a nonnegative return code
(processes report exit codes 0–255, and `os.system` wait statuses are
nonnegative too), so the reserved negative sentinel is distinguishable
from every exit code a real spawned process can report. -/
theorem c7_execute_step_error_reporting (o : ExecOracle) (se : SpawnOracle)
    (ps : PipeState) (step_id : Nat) :
    (∀ b, get_step ps.ex step_id = none →
      execute_step o se ps step_id b =
        ({ step_id := step_id, status := .error, return_code := -1,
           stdout := "", stderr := "",
           error_message := some ("Invalid step ID: " ++ toString step_id) }, ps)) ∧
    (∀ step msg, get_step ps.ex step_id = some step → se step.command ps.fs = some msg →
      (execute_step o se ps step_id false).1.status = StepStatus.error ∧
      (execute_step o se ps step_id false).1.return_code = -1 ∧
      (execute_step o se ps step_id false).1.error_message = some msg ∧
      (execute_step o se ps step_id false).2.spawned = ps.spawned) ∧
    (∀ step, get_step ps.ex step_id = some step → se step.command ps.fs = none →
      0 ≤ (execute_step o se ps step_id false).1.return_code) ∧
    (∀ step, get_step ps.ex step_id = some step →
      0 ≤ (execute_step o se ps step_id true).1.return_code) := by
  refine ⟨?_, ?_, ?_, ?_⟩
  · intro b h
    simp [execute_step, h]
  · intro step msg h hse
    simp [execute_step, h, run_captured, hse]
  · intro step h hse
    simp only [execute_step, h, Bool.false_eq_true, if_false, run_captured, hse]
    exact Int.natCast_nonneg _
  · intro step h
    simp only [execute_step, h, if_true, run_interactive]
    exact Int.natCast_nonneg _

/-- Claim C7 witness: a lookup miss (empty registry, id 10) gives the
descriptive invalid-id error without touching the state, and a spawn
failure on registry step 1 surfaces the exception's message with the
`-1` sentinel. -/
theorem c7_witness :
    get_step c7ps_empty.ex 10 = none ∧
    execute_step c7oracle c7se_fail c7ps_empty 10 false =
      ({ step_id := 10, status := .error, return_code := -1, stdout := "", stderr := "",
         error_message := some "Invalid step ID: 10" }, c7ps_empty) ∧
    (execute_step c7oracle c7se_fail c7ps 1 false).1.error_message =
      some "FileNotFoundError: sh" ∧
    (execute_step c7oracle c7se_fail c7ps 1 false).1.return_code = -1 := by
  have h1 := (c7_execute_step_error_reporting c7oracle c7se_fail c7ps_empty 10).1 false rfl
  have h2 := (c7_execute_step_error_reporting c7oracle c7se_fail c7ps 1).2.1
    c7step1 "FileNotFoundError: sh" (by decide) rfl
  exact ⟨rfl, by rw [h1]; rfl, h2.2.2.1, h2.2.1⟩

/-- Claim C9: when `execute_step` is called with a step identifier absent
from the executor's step list, the in-memory status table is left
completely unchanged (the `RUNNING`/`COMPLETE`/`ERROR` writes all happen
after a successful lookup), in either execution mode — indeed the whole
threaded state is returned untouched. -/
theorem c9_invalid_id_status_table (o : ExecOracle) (se : SpawnOracle)
    (ps : PipeState) (step_id : Nat) (b : Bool)
    (h : get_step ps.ex step_id = none) :
    (execute_step o se ps step_id b).2.ex.step_status = ps.ex.step_status ∧
    (execute_step o se ps step_id b).2 = ps := by
  constructor
  · simp [execute_step, h]
  · simp [execute_step, h]

/-- Claim C9 witness: executing the unknown id 0 against a fresh
protein-only executor leaves its status table unchanged. -/
theorem c9_witness :
    get_step c9ps.ex 0 = none ∧
    (execute_step c9oracle c9spawn c9ps 0 false).2.ex.step_status = c9ps.ex.step_status :=
  ⟨by decide, (c9_invalid_id_status_table c9oracle c9spawn c9ps 0 false (by decide)).1⟩

/-- Claim C6: with dry-run enabled, running a single step performs only
the lookup, dependency and resume checks (possibly consuming one
confirmation answer) and leaves the file system — hence every file and
every completion record — the ghost spawn trace, and the executor status
table exactly as they were; and a dry batch run only displays each
registry step, returning the session state unchanged and halting
nothing. -/
theorem c6_dry_run_frame (cfg : AppConfig) (st : AppState) (hdry : cfg.dry_run = true) :
    (∀ step_id,
      (app_run_pipeline_step cfg st step_id).2.fs = st.fs ∧
      (app_run_pipeline_step cfg st step_id).2.spawned = st.spawned ∧
      (app_run_pipeline_step cfg st step_id).2.executor = st.executor) ∧
    (∀ steps stx, run_full_loop cfg stx steps =
      ⟨steps.map (fun s => PipeEvent.dryShown s.id), none, stx⟩) := by
  constructor
  · intro step_id
    cases hs : get_step st.executor step_id with
    | none => simp [app_run_pipeline_step, hs]
    | some step =>
      simp only [app_run_pipeline_step, hs]
      by_cases h1 : (check_step_dependencies step_id cfg.working_dir st.fs).1
      · by_cases h3 : st.answers.head?.getD false = true
        · simp only [h1, h3, hdry]
          by_cases h2 : (check_output_exists step_id cfg.working_dir st.fs).1
          · simp [h1, h2, h3, hdry]
          · simp [h1, h2, h3, hdry]
        · have h3' : st.answers.head?.getD false = false := by
            cases hh : st.answers.head?.getD false
            · rfl
            · exact absurd hh h3
          by_cases h2 : (check_output_exists step_id cfg.working_dir st.fs).1
          · simp [h1, h2, h3', hdry]
          · simp [h1, h2, hdry]
      · simp [h1]
  · intro steps
    induction steps with
    | nil => intro stx; rfl
    | cons s rest ih =>
      intro stx
      simp [run_full_loop, hdry, ih stx]

/-- Claim C6 witness: a concrete dry-run config leaves a concrete session
state's file system untouched on a single step and on a full batch. -/
theorem c6_witness :
    c6cfg.dry_run = true ∧
    (app_run_pipeline_step c6cfg c6st 1).2.fs = c6st.fs ∧
    run_full_loop c6cfg c6st PROTEIN_PIPELINE_STEPS =
      ⟨PROTEIN_PIPELINE_STEPS.map (fun s => PipeEvent.dryShown s.id), none, c6st⟩ :=
  ⟨rfl, ((c6_dry_run_frame c6cfg c6st rfl).1 1).1,
   (c6_dry_run_frame c6cfg c6st rfl).2 PROTEIN_PIPELINE_STEPS c6st⟩

/-! ## Helper lemmas about the batch controller loop -/

theorem run_full_loop_cons_skip (cfg : AppConfig) (st : AppState)
    (s : PipelineStep) (rest : List PipelineStep)
    (hdry : cfg.dry_run = false)
    (hc : is_step_complete s.id cfg.working_dir st.fs = true) :
    run_full_loop cfg st (s :: rest) =
      ⟨.skipped s.id :: (run_full_loop cfg st rest).trace,
       (run_full_loop cfg st rest).halted,
       (run_full_loop cfg st rest).final⟩ := by
  simp [run_full_loop, hdry, hc]

theorem run_full_loop_cons_ok (cfg : AppConfig) (st : AppState)
    (s : PipelineStep) (rest : List PipelineStep)
    (hdry : cfg.dry_run = false)
    (hc : is_step_complete s.id cfg.working_dir st.fs = false)
    (hok : (app_run_pipeline_step cfg st s.id).1 = true) :
    run_full_loop cfg st (s :: rest) =
      ⟨.attempted s.id true ::
         (run_full_loop cfg (app_run_pipeline_step cfg st s.id).2 rest).trace,
       (run_full_loop cfg (app_run_pipeline_step cfg st s.id).2 rest).halted,
       (run_full_loop cfg (app_run_pipeline_step cfg st s.id).2 rest).final⟩ := by
  simp [run_full_loop, hdry, hc, hok]

theorem run_full_loop_cons_fail (cfg : AppConfig) (st : AppState)
    (s : PipelineStep) (rest : List PipelineStep)
    (hdry : cfg.dry_run = false)
    (hc : is_step_complete s.id cfg.working_dir st.fs = false)
    (hok : (app_run_pipeline_step cfg st s.id).1 = false) :
    run_full_loop cfg st (s :: rest) =
      ⟨[.attempted s.id false], some s.id, (app_run_pipeline_step cfg st s.id).2⟩ := by
  simp [run_full_loop, hdry, hc, hok]

theorem run_full_loop_order (cfg : AppConfig) (hdry : cfg.dry_run = false) :
    ∀ (steps : List PipelineStep) (st : AppState),
      (run_full_loop cfg st steps).trace.map PipeEvent.stepId =
        (steps.map (fun s => s.id)).take (run_full_loop cfg st steps).trace.length := by
  intro steps
  induction steps with
  | nil => intro st; rfl
  | cons s rest ih =>
    intro st
    by_cases hc : is_step_complete s.id cfg.working_dir st.fs
    · rw [run_full_loop_cons_skip cfg st s rest hdry hc]
      simp [PipeEvent.stepId, List.take_succ_cons, ih st]
    · have hc' : is_step_complete s.id cfg.working_dir st.fs = false := by
        cases hh : is_step_complete s.id cfg.working_dir st.fs
        · rfl
        · exact absurd hh hc
      by_cases hok : (app_run_pipeline_step cfg st s.id).1
      · rw [run_full_loop_cons_ok cfg st s rest hdry hc' hok]
        simp [PipeEvent.stepId, List.take_succ_cons, ih _]
      · have hok' : (app_run_pipeline_step cfg st s.id).1 = false := by
          cases hh : (app_run_pipeline_step cfg st s.id).1
          · rfl
          · exact absurd hh hok
        rw [run_full_loop_cons_fail cfg st s rest hdry hc' hok']
        simp [PipeEvent.stepId, List.take_succ_cons]

theorem run_full_loop_halt_pos (cfg : AppConfig) (hdry : cfg.dry_run = false) :
    ∀ (steps : List PipelineStep) (st : AppState) (k i : Nat),
      (run_full_loop cfg st steps).trace.get? k = some (.attempted i false) →
      k + 1 = (run_full_loop cfg st steps).trace.length ∧
      (run_full_loop cfg st steps).halted = some i := by
  intro steps
  induction steps with
  | nil =>
    intro st k i h
    simp [run_full_loop] at h
  | cons s rest ih =>
    intro st k i h
    by_cases hc : is_step_complete s.id cfg.working_dir st.fs
    · rw [run_full_loop_cons_skip cfg st s rest hdry hc] at h ⊢
      cases k with
      | zero => simp at h
      | succ j =>
        simp only [List.get?_cons_succ] at h
        have := ih st j i h
        simp only [List.length_cons]
        exact ⟨by omega, this.2⟩
    · have hc' : is_step_complete s.id cfg.working_dir st.fs = false := by
        cases hh : is_step_complete s.id cfg.working_dir st.fs
        · rfl
        · exact absurd hh hc
      by_cases hok : (app_run_pipeline_step cfg st s.id).1
      · rw [run_full_loop_cons_ok cfg st s rest hdry hc' hok] at h ⊢
        cases k with
        | zero => simp at h
        | succ j =>
          simp only [List.get?_cons_succ] at h
          have := ih _ j i h
          simp only [List.length_cons]
          exact ⟨by omega, this.2⟩
      · have hok' : (app_run_pipeline_step cfg st s.id).1 = false := by
          cases hh : (app_run_pipeline_step cfg st s.id).1
          · rfl
          · exact absurd hh hok
        rw [run_full_loop_cons_fail cfg st s rest hdry hc' hok'] at h ⊢
        cases k with
        | zero =>
          simp only [List.get?_cons_zero, Option.some_inj] at h
          cases h
          exact ⟨rfl, rfl⟩
        | succ j => simp at h

theorem run_full_loop_halted_last (cfg : AppConfig) (hdry : cfg.dry_run = false) :
    ∀ (steps : List PipelineStep) (st : AppState) (i : Nat),
      (run_full_loop cfg st steps).halted = some i →
      (run_full_loop cfg st steps).trace.getLast? = some (.attempted i false) := by
  intro steps
  induction steps with
  | nil =>
    intro st i h
    simp [run_full_loop] at h
  | cons s rest ih =>
    intro st i h
    by_cases hc : is_step_complete s.id cfg.working_dir st.fs
    · rw [run_full_loop_cons_skip cfg st s rest hdry hc] at h ⊢
      have hlast := ih st i h
      cases htr : (run_full_loop cfg st rest).trace with
      | nil => rw [htr] at hlast; simp at hlast
      | cons b t =>
        rw [htr] at hlast
        simpa [List.getLast?_cons_cons] using hlast
    · have hc' : is_step_complete s.id cfg.working_dir st.fs = false := by
        cases hh : is_step_complete s.id cfg.working_dir st.fs
        · rfl
        · exact absurd hh hc
      by_cases hok : (app_run_pipeline_step cfg st s.id).1
      · rw [run_full_loop_cons_ok cfg st s rest hdry hc' hok] at h ⊢
        have hlast := ih _ i h
        cases htr : (run_full_loop cfg (app_run_pipeline_step cfg st s.id).2 rest).trace with
        | nil => rw [htr] at hlast; simp at hlast
        | cons b t =>
          rw [htr] at hlast
          simpa [List.getLast?_cons_cons] using hlast
      · have hok' : (app_run_pipeline_step cfg st s.id).1 = false := by
          cases hh : (app_run_pipeline_step cfg st s.id).1
          · rfl
          · exact absurd hh hok
        rw [run_full_loop_cons_fail cfg st s rest hdry hc' hok'] at h ⊢
        simp only [Option.some_inj] at h
        simp [h]

theorem run_full_loop_skip_append (cfg : AppConfig) (hdry : cfg.dry_run = false) :
    ∀ (steps1 : List PipelineStep) (st : AppState) (tr1 : List PipeEvent) (st1 : AppState)
      (step : PipelineStep) (rest : List PipelineStep),
      run_full_loop cfg st steps1 = ⟨tr1, none, st1⟩ →
      is_step_complete step.id cfg.working_dir st1.fs = true →
      run_full_loop cfg st (steps1 ++ step :: rest) =
        ⟨tr1 ++ .skipped step.id :: (run_full_loop cfg st1 rest).trace,
         (run_full_loop cfg st1 rest).halted,
         (run_full_loop cfg st1 rest).final⟩ := by
  intro steps1
  induction steps1 with
  | nil =>
    intro st tr1 st1 step rest h hc
    simp only [run_full_loop, BatchResult.mk.injEq] at h
    obtain ⟨htr, _, hst⟩ := h
    subst htr; subst hst
    rw [List.nil_append, run_full_loop_cons_skip cfg st step rest hdry hc]
    simp
  | cons s ss ih =>
    intro st tr1 st1 step rest h hc
    by_cases hcs : is_step_complete s.id cfg.working_dir st.fs
    · rw [run_full_loop_cons_skip cfg st s ss hdry hcs, BatchResult.mk.injEq] at h
      obtain ⟨htr, hh, hf⟩ := h
      have hss : run_full_loop cfg st ss = ⟨(run_full_loop cfg st ss).trace, none, st1⟩ := by
        rw [← hh, ← hf]
      have hrec := ih st (run_full_loop cfg st ss).trace st1 step rest hss hc
      rw [List.cons_append, run_full_loop_cons_skip cfg st s (ss ++ step :: rest) hdry hcs, hrec,
        ← htr]
      simp
    · have hcs' : is_step_complete s.id cfg.working_dir st.fs = false := by
        cases hh : is_step_complete s.id cfg.working_dir st.fs
        · rfl
        · exact absurd hh hcs
      by_cases hok : (app_run_pipeline_step cfg st s.id).1
      · rw [run_full_loop_cons_ok cfg st s ss hdry hcs' hok, BatchResult.mk.injEq] at h
        obtain ⟨htr, hh, hf⟩ := h
        have hss : run_full_loop cfg (app_run_pipeline_step cfg st s.id).2 ss =
            ⟨(run_full_loop cfg (app_run_pipeline_step cfg st s.id).2 ss).trace, none, st1⟩ := by
          rw [← hh, ← hf]
        have hrec := ih (app_run_pipeline_step cfg st s.id).2
          (run_full_loop cfg (app_run_pipeline_step cfg st s.id).2 ss).trace st1 step rest hss hc
        rw [List.cons_append, run_full_loop_cons_ok cfg st s (ss ++ step :: rest) hdry hcs' hok,
          hrec, ← htr]
        simp
      · have hok' : (app_run_pipeline_step cfg st s.id).1 = false := by
          cases hh : (app_run_pipeline_step cfg st s.id).1
          · rfl
          · exact absurd hh hok
        rw [run_full_loop_cons_fail cfg st s ss hdry hcs' hok', BatchResult.mk.injEq] at h
        exact absurd h.2.1 (by simp)

theorem app_run_pipeline_step_ok (cfg : AppConfig) (hdry : cfg.dry_run = false) :
    ∀ (st : AppState) (step_id : Nat), (app_run_pipeline_step cfg st step_id).1 = true →
      ∃ step, get_step st.executor step_id = some step ∧
        (execute_step cfg.exec cfg.spawnErr ⟨st.executor, st.fs, st.spawned⟩
           step_id step.user_input_required).1.status = StepStatus.complete := by
  intro st step_id h
  cases hs : get_step st.executor step_id with
  | none => rw [app_run_pipeline_step, hs] at h; cases h
  | some step =>
    refine ⟨step, rfl, ?_⟩
    simp only [app_run_pipeline_step, hs] at h
    by_cases h1 : (check_step_dependencies step_id cfg.working_dir st.fs).1
    · by_cases h2 : (check_output_exists step_id cfg.working_dir st.fs).1
      · by_cases h3 : st.answers.head?.getD false = true
        · by_cases hst : (execute_step cfg.exec cfg.spawnErr
              ⟨st.executor, st.fs, st.spawned⟩ step_id step.user_input_required).1.status =
                StepStatus.complete
          · exact hst
          · simp [h1, h2, h3, hdry, hst] at h
        · have h3' : st.answers.head?.getD false = false := by
            cases hh : st.answers.head?.getD false
            · rfl
            · exact absurd hh h3
          simp [h1, h2, h3'] at h
      · by_cases hst : (execute_step cfg.exec cfg.spawnErr
            ⟨st.executor, st.fs, st.spawned⟩ step_id step.user_input_required).1.status =
              StepStatus.complete
        · exact hst
        · simp [h1, h2, hdry, hst] at h
    · simp [h1] at h

/-- Claim C5: in batch (non-dry) mode the controller iterates the
registry in declared order — the ids of the trace are a prefix of the
registry's declared id sequence; a step whose completion record exists
when the loop reaches it (after any non-halting prefix of the registry)
is skipped, passing the session state through unchanged — nothing is
spawned or re-run for it; a failed attempt only ever occurs as the last
event, with the loop reporting exactly that step's identifier as halting
the pipeline (and a reported halt always is such a final failed attempt);
and an attempt only counts as successful when its dispatched execution
actually returned status `Complete`, so a step whose attempt ends in
Error halts the remaining sequence. -/
theorem c5_run_full_pipeline (cfg : AppConfig) (st : AppState)
    (hdry : cfg.dry_run = false) :
    ((run_full_pipeline cfg st).trace.map PipeEvent.stepId =
       (cfg.current_steps.map (fun s => s.id)).take (run_full_pipeline cfg st).trace.length) ∧
    (∀ (steps1 : List PipelineStep) (tr1 : List PipeEvent) (st1 : AppState)
       (step : PipelineStep) (rest : List PipelineStep),
       run_full_loop cfg st steps1 = ⟨tr1, none, st1⟩ →
       is_step_complete step.id cfg.working_dir st1.fs = true →
       run_full_loop cfg st (steps1 ++ step :: rest) =
         ⟨tr1 ++ .skipped step.id :: (run_full_loop cfg st1 rest).trace,
          (run_full_loop cfg st1 rest).halted,
          (run_full_loop cfg st1 rest).final⟩) ∧
    (∀ k i, (run_full_pipeline cfg st).trace.get? k = some (.attempted i false) →
       k + 1 = (run_full_pipeline cfg st).trace.length ∧
       (run_full_pipeline cfg st).halted = some i) ∧
    (∀ i, (run_full_pipeline cfg st).halted = some i →
       (run_full_pipeline cfg st).trace.getLast? = some (.attempted i false)) ∧
    (∀ (stx : AppState) (step_id : Nat), (app_run_pipeline_step cfg stx step_id).1 = true →
       ∃ step, get_step stx.executor step_id = some step ∧
         (execute_step cfg.exec cfg.spawnErr ⟨stx.executor, stx.fs, stx.spawned⟩
            step_id step.user_input_required).1.status = StepStatus.complete) := by
  refine ⟨?_, ?_, ?_, ?_, ?_⟩
  · exact run_full_loop_order cfg hdry cfg.current_steps st
  · intro steps1 tr1 st1 step rest h hc
    exact run_full_loop_skip_append cfg hdry steps1 st tr1 st1 step rest h hc
  · intro k i h
    exact run_full_loop_halt_pos cfg hdry cfg.current_steps st k i h
  · intro i h
    exact run_full_loop_halted_last cfg hdry cfg.current_steps st i h
  · exact app_run_pipeline_step_ok cfg hdry

/-- Claim C5 witness: for a concrete non-dry config over the protein-only
registry, the trace ids of the batch run form a prefix of the registry's
declared id order. -/
theorem c5_witness :
    c5cfg.dry_run = false ∧
    (run_full_pipeline c5cfg c5st).trace.map PipeEvent.stepId =
      (c5cfg.current_steps.map (fun s => s.id)).take
        (run_full_pipeline c5cfg c5st).trace.length :=
  ⟨rfl, (c5_run_full_pipeline c5cfg c5st rfl).1⟩

end GmxFlow
